import Mathlib

/-
Verification of the wallet-authentication subsystem of the Reserve-to-save
backend (auth-server). The Go source is shallowly embedded: each Go function
used by the claims becomes a Lean definition over an explicit `World` state
(Postgres rows for users/sessions, Redis entries for nonces and the token
blacklist). Time is a `Nat` of seconds; one timestamp is used per service
call (the Go code reads the wall clock several times inside one handler, but
nothing in the claims depends on the clock advancing mid-call).

Cryptographic primitives are modeled symbolically:
* SHA-256 (`utils.HashString`) is an injective tagging function on strings;
  token hashes are represented by the token value itself (`hashToken`),
  which is faithful because the hash is collision-free in the symbolic model.
* An ECDSA personal-message signature (`utils.VerifySignature`) is a record
  carrying the signer address and the exact message that was signed;
  recovery yields the signer address exactly when the presented message is
  the signed one, and forgery does not exist in the symbolic model.
* A JWT (`Tok`) is a record of its signing algorithm, signing key and claims;
  HMAC verification succeeds exactly when the algorithm is in the HMAC
  family and the key matches, mirroring golang-jwt/v4 `ParseWithClaims`
  (key function checks the method, then the signature, then
  `RegisteredClaims.Valid`, which checks only expiry and issued-at here:
  issuer and audience are never validated by that library entry point).
-/

namespace R2S

deriving instance DecidableEq for Except

/-- Symbolic SHA-256 (`utils.HashString`): injective tagging of strings. -/
def HashString (s : String) : String := "sha256:" ++ s

/-! ## JWT model (`pkg/utils/jwt.go`, golang-jwt/v4 semantics) -/

/-- JWT signing algorithms that occur in the model; the Go verifier accepts
exactly the HMAC family (`jwt.SigningMethodHMAC`). -/
inductive SigAlg
  | hs256
  | hs384
  | hs512
  | rs256
  | es256
  | algNone
  deriving DecidableEq

/-- Whether the algorithm is in the HMAC family (the type check done by the
key function in `VerifyAccessToken` / `VerifyRefreshToken`). -/
def SigAlg.isHMAC : SigAlg → Bool
  | .hs256 => true
  | .hs384 => true
  | .hs512 => true
  | _ => false

/-- `utils.JWTClaims`: application claims plus the registered claims the Go
code sets (expiry, issued-at, issuer, audience). UUIDs are modeled as `Nat`. -/
structure JWTClaims where
  userID : Nat
  address : String
  lineUserID : String
  kycTier : Int
  sessionID : Nat
  expiresAt : Nat
  issuedAt : Nat
  issuer : String
  audience : List String
  deriving DecidableEq

/-- A signed JWT in the symbolic model: algorithm, signing key, payload. -/
structure Tok where
  alg : SigAlg
  key : String
  claims : JWTClaims
  deriving DecidableEq

/-- `utils.JWTManager`: distinct symmetric keys and lifetimes per token kind. -/
structure JWTManager where
  secretKey : String
  refreshKey : String
  accessDuration : Nat
  refreshDuration : Nat
  deriving DecidableEq

/-- `JWTManager.GenerateAccessToken`: overwrites the registered claims with
expiry `now + accessDuration`, issued-at `now`, issuer `r2s-auth`, audience
`[r2s-api]`, and signs with HS256 under the access key. -/
def generateAccessToken (m : JWTManager) (c : JWTClaims) (now : Nat) : Tok :=
  { alg := .hs256
    key := m.secretKey
    claims := { c with
      expiresAt := now + m.accessDuration
      issuedAt := now
      issuer := "r2s-auth"
      audience := ["r2s-api"] } }

/-- `JWTManager.GenerateRefreshToken`: fresh claims carrying only user id and
address (other application fields are Go zero values), signed with HS256
under the refresh key. -/
def generateRefreshToken (m : JWTManager) (userID : Nat) (address : String)
    (now : Nat) : Tok :=
  { alg := .hs256
    key := m.refreshKey
    claims :=
      { userID := userID
        address := address
        lineUserID := ""
        kycTier := 0
        sessionID := 0
        expiresAt := now + m.refreshDuration
        issuedAt := now
        issuer := "r2s-auth"
        audience := ["r2s-api"] } }

/-- Verification failures, mirroring the distinctions golang-jwt/v4 makes. -/
inductive JWTError
  | badAlgorithm
  | badSignature
  | expired
  | notYetIssued
  deriving DecidableEq

/-- `JWTManager.VerifyAccessToken` via golang-jwt/v4 `ParseWithClaims`: the
key function rejects non-HMAC methods, then the signature is checked against
the access key, then `RegisteredClaims.Valid` checks expiry (`now < exp`) and
issued-at (`iat ≤ now`). Issuer and audience are not validated. -/
def verifyAccessToken (m : JWTManager) (t : Tok) (now : Nat) :
    Except JWTError JWTClaims :=
  if ¬ t.alg.isHMAC then .error .badAlgorithm
  else if t.key ≠ m.secretKey then .error .badSignature
  else if ¬ now < t.claims.expiresAt then .error .expired
  else if ¬ t.claims.issuedAt ≤ now then .error .notYetIssued
  else .ok t.claims

/-- `JWTManager.VerifyRefreshToken`: identical to access verification but
against the refresh key. -/
def verifyRefreshToken (m : JWTManager) (t : Tok) (now : Nat) :
    Except JWTError JWTClaims :=
  if ¬ t.alg.isHMAC then .error .badAlgorithm
  else if t.key ≠ m.refreshKey then .error .badSignature
  else if ¬ now < t.claims.expiresAt then .error .expired
  else if ¬ t.claims.issuedAt ≤ now then .error .notYetIssued
  else .ok t.claims

/-! ## Address and nonce utilities (`pkg/utils` and go-ethereum `common`) -/

/-- go-ethereum `isHexCharacter`. -/
def isHexCharacter (c : Char) : Bool :=
  ('0' ≤ c && c ≤ '9') || ('a' ≤ c && c ≤ 'f') || ('A' ≤ c && c ≤ 'F')

/-- go-ethereum `has0xPrefix` (on the character list of the string): at
least two characters, the first `0`, the second `x` or `X`. -/
def hasHexStart (s : List Char) : Bool :=
  match s with
  | a :: b :: _ => a == '0' && (b == 'x' || b == 'X')
  | _ => false

/-- `utils.IsValidAddress` = go-ethereum `common.IsHexAddress`: strip an
optional 0x prefix, then require exactly 40 hex characters. -/
def isHexAddress (s : String) : Bool :=
  let t := if hasHexStart s.data then s.data.drop 2 else s.data
  t.length == 40 && t.all isHexCharacter

/-- ASCII lower-casing of one character (`strings.ToLower` / SQL `LOWER`,
restricted to the ASCII range that addresses use). -/
def asciiLower (c : Char) : Char :=
  if 'A' ≤ c && c ≤ 'Z' then Char.ofNat (c.toNat + 32) else c

/-- `strings.ToLower` on a string of the model. -/
def lowerStr (s : String) : String := String.mk (s.data.map asciiLower)

/-- `strings.EqualFold` on addresses, modeled as lower-case equality. -/
def eqFold (a b : String) : Bool := lowerStr a == lowerStr b

/-- Nibble to lower-case hex digit (Go `encoding/hex` alphabet). -/
def hexDigit (n : Nat) : Char :=
  match n with
  | 0 => '0' | 1 => '1' | 2 => '2' | 3 => '3'
  | 4 => '4' | 5 => '5' | 6 => '6' | 7 => '7'
  | 8 => '8' | 9 => '9' | 10 => 'a' | 11 => 'b'
  | 12 => 'c' | 13 => 'd' | 14 => 'e' | 15 => 'f'
  | _ => '0'

/-- Go `hex.EncodeToString`, two lower-case digits per byte. -/
def hexEncode : List Nat → List Char
  | [] => []
  | b :: bs => hexDigit (b / 16) :: hexDigit (b % 16) :: hexEncode bs

/-- `utils.GenerateNonce`: hex encoding of the 16 random bytes read from the
system RNG; the bytes are passed in explicitly as the random oracle. -/
def generateNonceFromBytes (bytes : List Nat) : String :=
  String.mk (hexEncode bytes)

/-- Symbolic RFC3339 rendering of a timestamp (`time.Format`); it round-trips
with parsing, which is all the service relies on. -/
def formatTime (t : Nat) : String := "time:" ++ toString t

/-- `utils.CreateSignMessage`: the exact fixed-format template of the Go
source, with the same literal text around the interpolated fields. -/
def createSignMessage (domain address chainID nonce issuedAt expiresAt
    requestID : String) : String :=
  domain ++ " wants you to sign in with your wallet:\n" ++ address ++
  "\n\nURI: " ++ domain ++ "\nVersion: 1\nChain ID: " ++ chainID ++
  "\nNonce: " ++ nonce ++ "\nIssued At: " ++ issuedAt ++
  "\nExpiration Time: " ++ expiresAt ++ "\nRequest ID: " ++ requestID ++
  "\nStatement: Sign to authenticate with R2S platform."

/-- Character class of the nonce capture group, Go regex `[a-f0-9]`. -/
def isLowerHexChar (c : Char) : Bool :=
  ('0' ≤ c && c ≤ '9') || ('a' ≤ c && c ≤ 'f')

/-- One attempted regex match at the head of the list: the literal
`Nonce: ` followed by exactly 32 characters of the class `[a-f0-9]`. -/
def matchNonceAt (l : List Char) : Option (List Char) :=
  let body := (l.drop 7).take 32
  if l.take 7 = "Nonce: ".data ∧ body.length = 32 ∧ body.all isLowerHexChar
  then some body
  else none

/-- Leftmost match of the Go regex `Nonce: ([a-f0-9]\x7b32\x7d)` over a
character list, returning the capture group. -/
def findNonce : List Char → Option (List Char)
  | [] => none
  | c :: rest =>
    match matchNonceAt (c :: rest) with
    | some n => some n
    | none => findNonce rest

/-- The nonce extraction performed at the top of `VerifySignature`
(`regexp.FindStringSubmatch` and taking the capture group). -/
def extractNonce (message : String) : Option String :=
  (findNonce message.data).map String.mk

/-! ## Ethereum signature model (`utils.VerifySignature`) -/

/-- A 65-byte recoverable signature in the symbolic model: whether it decodes
to a well-formed signature, the message that was signed, and the address of
the signer recovered from it. -/
structure EthSignature where
  wellFormed : Bool
  signedMessage : String
  signerAddress : String
  deriving DecidableEq

/-- `utils.VerifySignature`: decoding or length failures give an error;
otherwise recovery succeeds and the recovered address equals the true signer
exactly when the presented message is the signed one, compared to the
expected address with `strings.EqualFold`. -/
def verifyEthSignature (message : String) (sig : EthSignature)
    (expectedAddress : String) : Except String Bool :=
  if ¬ sig.wellFormed then .error "invalid signature encoding"
  else .ok (sig.signedMessage == message && eqFold sig.signerAddress expectedAddress)

/-! ## Data model (`pkg/models`), restricted to the fields the wallet flow
touches; the LINE-profile fields and metadata are never read or written by
the operations under verification and are omitted. -/

/-- `models.User`. -/
structure User where
  id : Nat
  walletAddress : String
  kycTier : Int
  status : String
  createdAt : Nat
  updatedAt : Nat
  lastLoginAt : Option Nat
  deriving DecidableEq

/-- Token hashes are the symbolic hash of the serialized token; since the
symbolic hash is injective, the hash is represented by the token itself. -/
abbrev TokenHash := Tok

/-- `utils.HashString` applied to a serialized token. -/
def hashToken (t : Tok) : TokenHash := t

/-- `models.Session`. -/
structure Session where
  id : Nat
  userID : Nat
  tokenHash : TokenHash
  refreshTokenHash : Option TokenHash
  ipAddress : Option String
  userAgent : Option String
  expiresAt : Nat
  refreshExpiresAt : Option Nat
  createdAt : Nat
  lastUsedAt : Nat
  deriving DecidableEq

/-- The JSON record stored under the nonce key in Redis (`nonceData` in
`GenerateNonce`); marshalling round-trips, so it is kept structured. The
embedded expiry is the RFC3339 string parsed back on verification. -/
structure NonceData where
  address : String
  chainId : String
  requestId : String
  expiresAt : Nat
  deriving DecidableEq

/-- The whole external state: Redis nonce entries (key, record, absolute
Redis expiry), the Redis blacklist (token hash, absolute expiry), and the
Postgres `users` and `sessions` tables. The Go code separates the two Redis
key families with the `nonce:` and `blacklist:` prefixes; they are separate
fields here. -/
structure World where
  nonces : List (String × NonceData × Nat)
  blacklist : List (TokenHash × Nat)
  users : List User
  sessions : List Session
  deriving DecidableEq

/-- Injectable failures of the Redis calls whose errors the service code
discards (`Exists` during validation, `SetWithExpiry` during logout). -/
structure CacheFaults where
  existsFails : Bool
  setFails : Bool
  deriving DecidableEq

/-! ## Redis operations (`pkg/database/redis.go`) -/

/-- `SetWithExpiry` on a nonce key: SET overwrites any previous value. -/
def redisSetNonce (w : World) (key : String) (d : NonceData) (expiry : Nat) :
    World :=
  { w with nonces := (key, d, expiry) :: w.nonces.filter (fun e => e.1 != key) }

/-- `GetString` on a nonce key: a hit only while the entry is unexpired
(Redis removes expired keys); a miss is the `redis.Nil` error the service
maps to its invalid-or-expired-nonce failure. -/
def redisGetNonce (w : World) (key : String) (now : Nat) : Option NonceData :=
  match w.nonces.find? (fun e => e.1 == key) with
  | some (_, d, expiry) => if now < expiry then some d else none
  | none => none

/-- `Del` on a nonce key. -/
def redisDelNonce (w : World) (key : String) : World :=
  { w with nonces := w.nonces.filter (fun e => e.1 != key) }

/-- `Exists` on a blacklist key; returns the value and whether the call
errored (the Go wrapper returns false together with the error). -/
def redisExistsBlacklist (w : World) (f : CacheFaults) (t : TokenHash)
    (now : Nat) : Bool × Bool :=
  if f.existsFails then (false, true)
  else
    match w.blacklist.find? (fun e => e.1 == t) with
    | some (_, expiry) => (decide (now < expiry), false)
    | none => (false, false)

/-- `SetWithExpiry` on a blacklist key; returns the new state and whether the
call errored. -/
def redisSetBlacklist (w : World) (f : CacheFaults) (t : TokenHash)
    (expiry : Nat) : World × Bool :=
  if f.setFails then (w, true)
  else ({ w with blacklist := (t, expiry) :: w.blacklist.filter (fun e => e.1 != t) }, false)

/-! ## User repository (`auth-server/repository/user.go`)

The repository maps `sql.ErrNoRows` to a `(nil, nil)` pair; with the
database itself infallible in the model, the lookups below return `none`
exactly where the Go caller receives a nil row pointer with a nil error. -/

/-- `UserRepository.FindByWalletAddress` (`WHERE LOWER(wallet_address) =
LOWER($1)`). -/
def findByWalletAddress (w : World) (address : String) : Option User :=
  w.users.find? (fun u => lowerStr u.walletAddress == lowerStr address)

/-- `UserRepository.FindByID`. -/
def findUserByID (w : World) (id : Nat) : Option User :=
  w.users.find? (fun u => u.id == id)

/-- `UserRepository.UpdateLastLogin`. -/
def updateLastLogin (w : World) (id : Nat) (now : Nat) : World :=
  { w with users := w.users.map (fun u =>
      if u.id == id then { u with lastLoginAt := some now } else u) }

/-! ## Session repository (`auth-server/repository/session.go`) -/

/-- `SessionRepository.Create`. -/
def sessionCreate (w : World) (s : Session) : World :=
  { w with sessions := w.sessions ++ [s] }

/-- `SessionRepository.FindByToken` (`WHERE token_hash = $1`). -/
def findSessionByToken (w : World) (h : TokenHash) : Option Session :=
  w.sessions.find? (fun s => s.tokenHash == h)

/-- `SessionRepository.FindByRefreshToken` (`WHERE refresh_token_hash = $1`). -/
def findSessionByRefreshToken (w : World) (h : TokenHash) : Option Session :=
  w.sessions.find? (fun s => s.refreshTokenHash == some h)

/-- `SessionRepository.Update`: the UPDATE statement sets exactly the columns
token_hash, expires_at and last_used_at of the row with the given id. -/
def sessionUpdate (w : World) (s : Session) : World :=
  { w with sessions := w.sessions.map (fun t =>
      if t.id == s.id then
        { t with tokenHash := s.tokenHash, expiresAt := s.expiresAt,
                 lastUsedAt := s.lastUsedAt }
      else t) }

/-- `SessionRepository.UpdateLastUsed`. -/
def updateLastUsed (w : World) (id : Nat) (now : Nat) : World :=
  { w with sessions := w.sessions.map (fun s =>
      if s.id == id then { s with lastUsedAt := now } else s) }

/-- `SessionRepository.DeleteByToken`: a plain SQL DELETE, which succeeds
also when no row matches. -/
def deleteSessionByToken (w : World) (h : TokenHash) : World :=
  { w with sessions := w.sessions.filter (fun s => s.tokenHash != h) }

/-! ## Auth service (`auth-server/services`, file `auth_service.go`) -/

/-- Failures of the service operations. `nilDeref` marks the Go executions
that dereference a nil row pointer (a runtime panic): the repository lookups
return `(nil, nil)` for a missing row, the service only tests the error half,
and then reads a field of the nil row. -/
inductive SvcError
  | appError (msg : String)
  | jwtError (e : JWTError)
  | nilDeref
  deriving DecidableEq

/-- The `*Tokens` pair returned by `VerifySignature`. -/
structure Tokens where
  accessToken : Tok
  refreshToken : Tok
  deriving DecidableEq

/-- `AuthService.GenerateNonce`. The random bytes of the nonce, the fresh
request id (a UUID in Go) and the clock are explicit arguments. Returns the
nonce, the message, the request id and the absolute expiry. -/
def generateNonce (w : World) (address chainID : String)
    (randomBytes : List Nat) (requestID : String) (now : Nat) :
    Except SvcError (String × String × String × Nat) × World :=
  if ¬ isHexAddress address then (.error (.appError "invalid wallet address"), w)
  else
    let nonce := generateNonceFromBytes randomBytes
    let issuedAt := formatTime now
    let expiryStr := formatTime (now + 6 * 60)
    let message := createSignMessage "https://r2s.io" address chainID nonce
      issuedAt expiryStr requestID
    let nonceHash := HashString nonce
    let d : NonceData :=
      { address := lowerStr address
        chainId := chainID
        requestId := requestID
        expiresAt := now + 6 * 60 }
    let w1 := redisSetNonce w ("nonce:" ++ nonceHash) d (now + 6 * 60)
    (.ok (nonce, message, requestID, now + 6 * 60), w1)

/-- `AuthService.VerifySignature` (verify-and-login). The fresh session id
(a UUID in Go) is an explicit argument. The user-creation branch of the Go
source is guarded by a non-nil lookup error, which the repository only
produces on a database fault (not modeled); a missing user row arrives as a
nil row with a nil error, and the Go else-branch then reads `user.ID`,
a nil-pointer panic, modeled as `nilDeref`. -/
def verifySignature (w : World) (m : JWTManager) (address : String)
    (sig : EthSignature) (message : String) (requestID ipAddress userAgent :
    String) (freshSessionID : Nat) (now : Nat) :
    Except SvcError (Tokens × User) × World :=
  match extractNonce message with
  | none => (.error (.appError "invalid message format"), w)
  | some nonce =>
    let key := "nonce:" ++ HashString nonce
    match redisGetNonce w key now with
    | none => (.error (.appError "invalid or expired nonce"), w)
    | some d =>
      if lowerStr d.address ≠ lowerStr address then
        (.error (.appError "address mismatch"), w)
      else if d.expiresAt < now then
        (.error (.appError "nonce expired"), w)
      else
        match verifyEthSignature message sig address with
        | .error _ => (.error (.appError "invalid signature"), w)
        | .ok valid =>
          if ¬ valid then (.error (.appError "invalid signature"), w)
          else
            let w1 := redisDelNonce w key
            match findByWalletAddress w1 (lowerStr address) with
            | none => (.error .nilDeref, w1)
            | some user =>
              let w2 := updateLastLogin w1 user.id now
              let claims : JWTClaims :=
                { userID := user.id
                  address := user.walletAddress
                  lineUserID := ""
                  kycTier := user.kycTier
                  sessionID := freshSessionID
                  expiresAt := 0
                  issuedAt := 0
                  issuer := ""
                  audience := [] }
              let accessToken := generateAccessToken m claims now
              let refreshToken := generateRefreshToken m user.id
                user.walletAddress now
              let session : Session :=
                { id := freshSessionID
                  userID := user.id
                  tokenHash := hashToken accessToken
                  refreshTokenHash := some (hashToken refreshToken)
                  ipAddress := some ipAddress
                  userAgent := some userAgent
                  expiresAt := now + 15 * 60
                  refreshExpiresAt := some (now + 7 * 24 * 60 * 60)
                  createdAt := now
                  lastUsedAt := now }
              let w3 := sessionCreate w2 session
              (.ok ({ accessToken := accessToken, refreshToken := refreshToken },
                    user), w3)

/-- `AuthService.RefreshToken`. A missing session row or a missing user row
arrives as a nil pointer with a nil error and the Go code then reads a field
of it (`session.UserID`, `user.ID`): modeled as `nilDeref`. -/
def refreshToken (w : World) (m : JWTManager) (rt : Tok) (now : Nat) :
    Except SvcError Tok × World :=
  match verifyRefreshToken m rt now with
  | .error _ => (.error (.appError "invalid refresh token"), w)
  | .ok claims =>
    match findSessionByRefreshToken w (hashToken rt) with
    | none => (.error .nilDeref, w)
    | some session =>
      if session.userID ≠ claims.userID then
        (.error (.appError "invalid session"), w)
      else
        match findUserByID w claims.userID with
        | none => (.error .nilDeref, w)
        | some user =>
          let newClaims : JWTClaims :=
            { userID := user.id
              address := user.walletAddress
              lineUserID := ""
              kycTier := user.kycTier
              sessionID := session.id
              expiresAt := 0
              issuedAt := 0
              issuer := ""
              audience := [] }
          let accessToken := generateAccessToken m newClaims now
          let session1 := { session with
            tokenHash := hashToken accessToken
            expiresAt := now + 15 * 60
            lastUsedAt := now }
          let w1 := sessionUpdate w session1
          (.ok accessToken, w1)

/-- `AuthService.Logout`: delete the session row by token hash, then verify
the token (error discarded) and, when the remaining lifetime is positive,
insert the blacklist entry with exactly that remaining TTL (the cache error
of the insert is discarded). -/
def logout (w : World) (m : JWTManager) (f : CacheFaults) (token : Tok)
    (now : Nat) : Except SvcError Unit × World :=
  let th := hashToken token
  let w1 := deleteSessionByToken w th
  match verifyAccessToken m token now with
  | .error _ => (.ok (), w1)
  | .ok claims =>
    if now < claims.expiresAt then
      let (w2, _errored) := redisSetBlacklist w1 f th claims.expiresAt
      (.ok (), w2)
    else (.ok (), w1)

/-- The tail of `AuthService.ValidateToken` after the blacklist check: verify
the token, look up the session by token hash (a missing row is a nil pointer
whose `UserID` field the Go code reads: `nilDeref`), compare the session
owner, check the session expiry against the wall clock, and touch last-used. -/
def validateTokenChecks (w : World) (m : JWTManager) (token : Tok)
    (now : Nat) : Except SvcError JWTClaims × World :=
  match verifyAccessToken m token now with
  | .error e => (.error (.jwtError e), w)
  | .ok claims =>
    match findSessionByToken w (hashToken token) with
    | none => (.error .nilDeref, w)
    | some session =>
      if session.userID ≠ claims.userID then
        (.error (.appError "invalid session"), w)
      else if session.expiresAt < now then
        (.error (.appError "session expired"), w)
      else
        (.ok claims, updateLastUsed w session.id now)

/-- `AuthService.ValidateToken`: the blacklist existence check comes first
(its cache error is discarded, so a failed check reads as not revoked),
then the checks of `validateTokenChecks`. -/
def validateToken (w : World) (m : JWTManager) (f : CacheFaults) (token : Tok)
    (now : Nat) : Except SvcError JWTClaims × World :=
  let (blacklisted, _errored) := redisExistsBlacklist w f (hashToken token) now
  if blacklisted then (.error (.appError "token has been revoked"), w)
  else validateTokenChecks w m token now

/-! ## Concrete fixtures used by the evaluation theorems -/

/-- A manager with the configured lifetimes (15 minutes, 7 days) and two
distinct signing keys. -/
def mgr : JWTManager :=
  { secretKey := "access-key"
    refreshKey := "refresh-key"
    accessDuration := 900
    refreshDuration := 604800 }

/-- The fault-free cache. -/
def noFaults : CacheFaults := { existsFails := false, setFails := false }

/-- The sample address of the end-to-end scenario. -/
def addrA : String := "0xABCDEF0123456789000000000000000000000001"

/-- A 32-character lower-case hex nonce. -/
def nonceA : String := "aaaaaaaaaaaaaaaaaaaaaaaaaaaaaaaa"

/-- A message embedding `nonceA` in the extraction pattern. -/
def msgA : String := "Nonce: " ++ nonceA

/-- The stored challenge record for `nonceA`. -/
def nonceEntryA : NonceData :=
  { address := lowerStr addrA
    chainId := "1001"
    requestId := "req-1"
    expiresAt := 1000 }

/-- A world holding only the `nonceA` challenge. -/
def w0 : World :=
  { nonces := [("nonce:" ++ HashString nonceA, nonceEntryA, 1000)]
    blacklist := []
    users := []
    sessions := [] }

/-- A valid signature of `msgA` by the owner of `addrA`. -/
def sigA : EthSignature :=
  { wellFormed := true, signedMessage := msgA, signerAddress := addrA }

/-- A well-formed signature over a different message: recovery yields a
mismatching address, so verification reports the signature invalid. -/
def sigBad : EthSignature :=
  { wellFormed := true, signedMessage := "tampered", signerAddress := addrA }

/-- An existing user row for `addrA` (canonical lower-case storage). -/
def userA : User :=
  { id := 1
    walletAddress := "0xabcdef0123456789000000000000000000000001"
    kycTier := 0
    status := "active"
    createdAt := 0
    updatedAt := 0
    lastLoginAt := none }

/-- The `nonceA` world with the `addrA` user row present. -/
def w0u : World := { w0 with users := [userA] }

/-- A world holding only the `addrA` user row. -/
def wU : World :=
  { nonces := [], blacklist := [], users := [userA], sessions := [] }

/-- The empty world. -/
def emptyW : World :=
  { nonces := [], blacklist := [], users := [], sessions := [] }

/-- A refresh token for `userA` issued at time 0. -/
def rtA : Tok := generateRefreshToken mgr 1 userA.walletAddress 0

/-- Application claims for `userA` bound to session 7. -/
def claims0 : JWTClaims :=
  { userID := 1
    address := userA.walletAddress
    lineUserID := ""
    kycTier := 0
    sessionID := 7
    expiresAt := 0
    issuedAt := 0
    issuer := ""
    audience := [] }

/-- An access token for `userA` and session 7 issued at time 0. -/
def atA : Tok := generateAccessToken mgr claims0 0

/-- A token signed with the right key and algorithm and unexpired, but with
a wrong issuer and audience. -/
def tokEvil : Tok :=
  { alg := .hs256
    key := "access-key"
    claims :=
      { userID := 1
        address := ""
        lineUserID := ""
        kycTier := 0
        sessionID := 0
        expiresAt := 10
        issuedAt := 0
        issuer := "evil"
        audience := ["evil"] } }

/-- An access token for `userA` expiring at time 1000. -/
def atB : Tok :=
  { alg := .hs256
    key := "access-key"
    claims :=
      { userID := 1
        address := userA.walletAddress
        lineUserID := ""
        kycTier := 0
        sessionID := 7
        expiresAt := 1000
        issuedAt := 0
        issuer := "r2s-auth"
        audience := ["r2s-api"] } }

/-- The session created at login for `userA`, session id 7. -/
def sessA : Session :=
  { id := 7
    userID := 1
    tokenHash := hashToken atA
    refreshTokenHash := some (hashToken rtA)
    ipAddress := some "ip"
    userAgent := some "ua"
    expiresAt := 900
    refreshExpiresAt := some 604800
    createdAt := 0
    lastUsedAt := 0 }

/-- A world with the `userA` row and its live session. -/
def wR : World :=
  { nonces := [], blacklist := [], users := [userA], sessions := [sessA] }

/-- The access token minted by the sample refresh at time 100. -/
def atkC : Tok := generateAccessToken mgr claims0 100

/-- The world after the sample refresh at time 100. -/
def w1C : World := (refreshToken wR mgr rtA 100).2

/-! ## Theorems -/

/-- Helper: `Logout` always reports success. -/
theorem logout_fst (w : World) (m : JWTManager) (f : CacheFaults)
    (token : Tok) (now : Nat) : (logout w m f token now).1 = .ok () := by
  unfold logout
  cases verifyAccessToken m token now with
  | error e => rfl
  | ok claims =>
    by_cases h : now < claims.expiresAt
    · cases hr : redisSetBlacklist (deleteSessionByToken w (hashToken token))
        f (hashToken token) claims.expiresAt with
      | mk w2 b => simp [h, hr]
    · simp [h]

/-- Helper: the session store after `Logout` is the store with every row of
the token hash removed; the blacklist steps do not touch sessions. -/
theorem logout_sessions (w : World) (m : JWTManager) (f : CacheFaults)
    (token : Tok) (now : Nat) :
    (logout w m f token now).2.sessions
      = w.sessions.filter (fun s => s.tokenHash != hashToken token) := by
  unfold logout
  cases verifyAccessToken m token now with
  | error e => rfl
  | ok claims =>
    by_cases h : now < claims.expiresAt
    · unfold redisSetBlacklist
      by_cases hf : f.setFails <;>
        simp [h, hf, deleteSessionByToken]
    · simp [h, deleteSessionByToken]

/-- C1: with a valid challenge and a valid signature for a first-time
address (no user row), `VerifySignature` does not create the KYC-tier-0
user the specification requires: the repository maps the missing row to a
nil row with a nil error, the service branches on the error only, and the
else-branch dereferences the nil user — a runtime panic. The second half of
the claim does hold: with the user row present, the call succeeds and stamps
last-login on that row. -/
theorem first_login_nil_deref :
    (verifySignature w0 mgr addrA sigA msgA "req-1" "ip" "ua" 7 500).1
      = .error .nilDeref
    ∧ ((verifySignature w0u mgr addrA sigA msgA "req-1" "ip" "ua" 7 500).2).users
      = [{ userA with lastLoginAt := some 500 }] := by
  constructor <;> decide

/-- C2: a cryptographically valid refresh token (resp. access token) whose
session row is absent does not produce the invalid-session error: the
session repository maps the missing row to a nil row with a nil error and
the service then reads `session.UserID`, a nil-pointer panic. -/
theorem missing_session_nil_deref :
    (refreshToken wU mgr rtA 100).1 = .error .nilDeref
    ∧ (validateToken wU mgr noFaults atA 100).1 = .error .nilDeref := by
  constructor <;> decide

/-- C10: revocation-list failures are fail-open. A failing existence check
makes `ValidateToken` proceed exactly as the post-blacklist checks dictate
(the token reads as not revoked); `Logout` returns success under every fault
pattern, and a failing revocation insert leaves the blacklist untouched.
No cache failure reaches the caller of either operation. -/
theorem revocation_fail_open (w : World) (m : JWTManager) (token : Tok)
    (now : Nat) (f : CacheFaults) (fs fe : Bool) :
    validateToken w m { existsFails := true, setFails := fs } token now
      = validateTokenChecks w m token now
    ∧ (logout w m f token now).1 = .ok ()
    ∧ (logout w m { existsFails := fe, setFails := true } token now).2.blacklist
      = w.blacklist := by
  refine ⟨rfl, ?_, ?_⟩
  · unfold logout
    cases verifyAccessToken m token now with
    | error e => rfl
    | ok claims =>
      by_cases h : now < claims.expiresAt
      · simp [h, redisSetBlacklist]
      · simp [h]
  · unfold logout
    cases verifyAccessToken m token now with
    | error e => rfl
    | ok claims =>
      by_cases h : now < claims.expiresAt
      · simp [h, redisSetBlacklist, deleteSessionByToken]
      · simp [h, deleteSessionByToken]

/-- C8: `Logout` is idempotent. Both calls return success (a SQL DELETE that
matches no row is not an error), and the second call leaves the session
store exactly as the first call left it. -/
theorem logout_idempotent (w : World) (m : JWTManager) (f : CacheFaults)
    (token : Tok) (now later : Nat) :
    (logout w m f token now).1 = .ok ()
    ∧ (logout (logout w m f token now).2 m f token later).1 = .ok ()
    ∧ (logout (logout w m f token now).2 m f token later).2.sessions
      = (logout w m f token now).2.sessions := by
  refine ⟨logout_fst w m f token now, logout_fst _ m f token later, ?_⟩
  rw [logout_sessions (logout w m f token now).2 m f token later,
    logout_sessions w m f token now, List.filter_filter]
  simp

/-- C5 counterexample: a token signed with the correct access key and an
HMAC algorithm, unexpired, but carrying a wrong issuer and audience, is
accepted by `VerifyAccessToken` — golang-jwt/v4 `ParseWithClaims` never
validates issuer or audience, contradicting the claim that verification
rejects any token whose issuer or audience fails. -/
theorem wrong_issuer_accepted :
    verifyAccessToken mgr tokEvil 5 = .ok tokEvil.claims
    ∧ tokEvil.claims.issuer ≠ "r2s-auth"
    ∧ tokEvil.claims.audience ≠ ["r2s-api"] := by
  refine ⟨rfl, ?_, ?_⟩ <;> decide

/-- C5 amended: access and refresh tokens are signed with distinct symmetric
keys per kind; when the two keys differ each verifier rejects the other
kind of token; both verifiers reject any non-HMAC algorithm, any wrong
signing key, and any expired token. (Issuer and audience are embedded at
issuance but not checked at verification.) -/
theorem jwt_verifier_checks (m : JWTManager) (c : JWTClaims) (uid : Nat)
    (addr : String) (t0 t1 now : Nat) (t : Tok)
    (hk : m.secretKey ≠ m.refreshKey) :
    verifyAccessToken m (generateRefreshToken m uid addr t0) now
      = .error .badSignature
    ∧ verifyRefreshToken m (generateAccessToken m c t1) now
      = .error .badSignature
    ∧ (t.alg.isHMAC = false →
        verifyAccessToken m t now = .error .badAlgorithm
        ∧ verifyRefreshToken m t now = .error .badAlgorithm)
    ∧ (t.alg.isHMAC = true → t.key ≠ m.secretKey →
        verifyAccessToken m t now = .error .badSignature)
    ∧ (t.alg.isHMAC = true → t.key ≠ m.refreshKey →
        verifyRefreshToken m t now = .error .badSignature)
    ∧ (t.alg.isHMAC = true → t.key = m.secretKey →
        t.claims.expiresAt ≤ now →
        verifyAccessToken m t now = .error .expired)
    ∧ (t.alg.isHMAC = true → t.key = m.refreshKey →
        t.claims.expiresAt ≤ now →
        verifyRefreshToken m t now = .error .expired) := by
  refine ⟨?_, ?_, ?_, ?_, ?_, ?_, ?_⟩
  · simp [verifyAccessToken, generateRefreshToken, SigAlg.isHMAC, Ne.symm hk]
  · simp [verifyRefreshToken, generateAccessToken, SigAlg.isHMAC, hk]
  · intro halg
    constructor <;> simp [verifyAccessToken, verifyRefreshToken, halg]
  · intro halg hkey
    simp [verifyAccessToken, halg, hkey]
  · intro halg hkey
    simp [verifyRefreshToken, halg, hkey]
  · intro halg hkey hexp
    simp [verifyAccessToken, halg, hkey, Nat.not_lt.mpr hexp]
  · intro halg hkey hexp
    simp [verifyRefreshToken, halg, hkey, Nat.not_lt.mpr hexp]

/-- C5 witness: the key-separation theorem applied to the concrete manager
with its two distinct keys. -/
theorem jwt_verifier_checks_witness :
    mgr.secretKey ≠ mgr.refreshKey
    ∧ verifyAccessToken mgr (generateRefreshToken mgr 1 addrA 0) 100
        = .error .badSignature :=
  ⟨by decide, (jwt_verifier_checks mgr claims0 1 addrA 0 0 100 tokEvil
    (by decide)).1⟩

/-- C4: for a well-signed access token with positive remaining lifetime,
`Logout` succeeds, inserts the revocation entry keyed by the token hash with
absolute expiry equal to the token expiry (TTL = remaining lifetime), and a
subsequent `ValidateToken` fails with the revoked error even though the
token itself still verifies; for a token already past its expiry, the
verification inside `Logout` fails and the blacklist is left untouched
(the insert is skipped). -/
theorem logout_revokes (w : World) (m : JWTManager) (token : Tok) (now : Nat)
    (h1 : token.alg.isHMAC = true) (h2 : token.key = m.secretKey)
    (h3 : token.claims.issuedAt ≤ now) :
    (now < token.claims.expiresAt →
      (logout w m noFaults token now).1 = .ok ()
      ∧ (logout w m noFaults token now).2.blacklist.find?
          (fun e => e.1 == hashToken token)
          = some (hashToken token, token.claims.expiresAt)
      ∧ (validateToken (logout w m noFaults token now).2 m noFaults token
          now).1 = .error (.appError "token has been revoked"))
    ∧ (token.claims.expiresAt ≤ now →
        (logout w m noFaults token now).2.blacklist = w.blacklist) := by
  constructor
  · intro hlt
    have hv : verifyAccessToken m token now = .ok token.claims := by
      simp [verifyAccessToken, h1, h2, hlt, h3]
    have hl : logout w m noFaults token now
        = (.ok (), { deleteSessionByToken w (hashToken token) with
            blacklist := (hashToken token, token.claims.expiresAt)
              :: w.blacklist.filter (fun e => e.1 != hashToken token) }) := by
      unfold logout
      rw [hv]
      simp [hlt, redisSetBlacklist, noFaults, deleteSessionByToken]
    refine ⟨by rw [hl], ?_, ?_⟩
    · rw [hl]
      simp [List.find?]
    · rw [hl]
      unfold validateToken redisExistsBlacklist
      simp [noFaults, List.find?, hlt]
  · intro hge
    have hv : verifyAccessToken m token now = .error .expired := by
      simp [verifyAccessToken, h1, h2, Nat.not_lt.mpr hge]
    unfold logout
    rw [hv]
    rfl

/-- C4 witness: logging out the concrete unexpired token `atB` at time 100
makes validation at time 100 fail with the revoked error. -/
theorem logout_revokes_witness :
    atB.alg.isHMAC = true ∧ atB.key = mgr.secretKey
    ∧ atB.claims.issuedAt ≤ 100 ∧ 100 < atB.claims.expiresAt
    ∧ (validateToken (logout emptyW mgr noFaults atB 100).2 mgr noFaults atB
        100).1 = .error (.appError "token has been revoked") :=
  ⟨rfl, rfl, by decide, by decide,
   ((logout_revokes emptyW mgr atB 100 rfl rfl (by decide)).1 (by decide)).2.2⟩

/-- Helper: a search by key over a list from which that key was filtered
out misses. -/
theorem find?_beq_filter_bne {α β : Type} [BEq β] [LawfulBEq β]
    (l : List α) (f : α → β) (k : β) :
    (l.filter (fun a => f a != k)).find? (fun a => f a == k) = none := by
  rw [List.find?_eq_none]
  intro x hx
  rw [List.mem_filter] at hx
  simpa using hx.2

/-- Helper: deleting a nonce key makes a lookup of that key miss at any
time. -/
theorem redisGetNonce_after_del (w : World) (k : String) (now : Nat) :
    redisGetNonce (redisDelNonce w k) k now = none := by
  unfold redisGetNonce redisDelNonce
  rw [find?_beq_filter_bne w.nonces (fun e => e.1) k]

/-- Helper: nonce lookups depend only on the nonce store. -/
theorem redisGetNonce_congr (w1 w2 : World) (k : String) (now : Nat)
    (h : w1.nonces = w2.nonces) :
    redisGetNonce w1 k now = redisGetNonce w2 k now := by
  unfold redisGetNonce
  rw [h]

/-- Helper: a verify-and-login run that passes the nonce, address, expiry
and signature checks leaves the nonce store with the consumed key deleted,
whatever happens on the identity path afterwards. -/
theorem verify_success_nonces (w : World) (m : JWTManager) (address : String)
    (sig : EthSignature) (message rid ip ua : String) (sid now : Nat)
    (nonce : String) (d : NonceData)
    (hx : extractNonce message = some nonce)
    (hg : redisGetNonce w ("nonce:" ++ HashString nonce) now = some d)
    (ha : lowerStr d.address = lowerStr address)
    (he : ¬ d.expiresAt < now)
    (hs : verifyEthSignature message sig address = .ok true) :
    (verifySignature w m address sig message rid ip ua sid now).2.nonces
      = (redisDelNonce w ("nonce:" ++ HashString nonce)).nonces := by
  unfold verifySignature
  simp only [hx, hg, hs, ha, he]
  simp only [ne_eq, not_true_eq_false, if_false, ite_false, if_neg he]
  cases hf : findByWalletAddress
      (redisDelNonce w ("nonce:" ++ HashString nonce)) (lowerStr address) with
  | none => simp [hf]
  | some user => simp [hf, sessionCreate, updateLastLogin]

/-- C3 counterexample: a verify-and-login attempt whose signature check
fails leaves the whole store unchanged — the nonce is still present
afterwards, so the nonce is not consumed before (nor by) a failed signature
check. -/
theorem failed_signature_keeps_nonce :
    (verifySignature w0 mgr addrA sigBad msgA "req-1" "ip" "ua" 7 500).1
      = .error (.appError "invalid signature")
    ∧ (verifySignature w0 mgr addrA sigBad msgA "req-1" "ip" "ua" 7 500).2
      = w0
    ∧ redisGetNonce
        (verifySignature w0 mgr addrA sigBad msgA "req-1" "ip" "ua" 7 500).2
        ("nonce:" ++ HashString nonceA) 500 = some nonceEntryA := by
  refine ⟨by decide, by decide, by decide⟩

/-- C3 amended: the checks run in the order nonce lookup (failing
invalid-or-expired-nonce on a miss), address comparison (address mismatch),
embedded expiry (nonce expired), signature (invalid signature); every
failing run leaves the store untouched, and the nonce is deleted only after
the signature verifies, so a failed-signature attempt does not consume it. -/
theorem verify_check_order (w : World) (m : JWTManager) (address : String)
    (sig : EthSignature) (message rid ip ua : String) (sid now : Nat)
    (nonce : String) (hx : extractNonce message = some nonce) :
    (redisGetNonce w ("nonce:" ++ HashString nonce) now = none →
      verifySignature w m address sig message rid ip ua sid now
        = (.error (.appError "invalid or expired nonce"), w))
    ∧ (∀ d, redisGetNonce w ("nonce:" ++ HashString nonce) now = some d →
        (lowerStr d.address ≠ lowerStr address →
          verifySignature w m address sig message rid ip ua sid now
            = (.error (.appError "address mismatch"), w))
        ∧ (lowerStr d.address = lowerStr address → d.expiresAt < now →
          verifySignature w m address sig message rid ip ua sid now
            = (.error (.appError "nonce expired"), w))
        ∧ (lowerStr d.address = lowerStr address → ¬ d.expiresAt < now →
            verifyEthSignature message sig address ≠ .ok true →
          verifySignature w m address sig message rid ip ua sid now
            = (.error (.appError "invalid signature"), w))
        ∧ (lowerStr d.address = lowerStr address → ¬ d.expiresAt < now →
            verifyEthSignature message sig address = .ok true →
          redisGetNonce
            (verifySignature w m address sig message rid ip ua sid now).2
            ("nonce:" ++ HashString nonce) now = none)) := by
  constructor
  · intro hnone
    unfold verifySignature
    simp only [hx, hnone]
  · intro d hg
    refine ⟨?_, ?_, ?_, ?_⟩
    · intro hne
      unfold verifySignature
      simp only [hx, hg]
      rw [if_pos hne]
    · intro ha hlt
      unfold verifySignature
      simp only [hx, hg]
      rw [if_neg (not_not_intro ha), if_pos hlt]
    · intro ha hge hsig
      unfold verifySignature
      simp only [hx, hg]
      rw [if_neg (not_not_intro ha), if_neg hge]
      cases hs : verifyEthSignature message sig address with
      | error e => rfl
      | ok v =>
        cases v with
        | true => exact absurd hs hsig
        | false => rfl
    · intro ha hge hs
      rw [redisGetNonce_congr _ (redisDelNonce w ("nonce:" ++ HashString nonce))
        _ _ (verify_success_nonces w m address sig message rid ip ua sid now
          nonce d hx hg ha hge hs)]
      exact redisGetNonce_after_del w ("nonce:" ++ HashString nonce) now

/-- C3 witness: at a concrete input whose stored challenge carries a
different address, the call fails with the address mismatch error and the
store is unchanged. -/
theorem verify_check_order_witness :
    verifySignature w0 mgr "0x0000000000000000000000000000000000000000"
      sigA msgA "req-1" "ip" "ua" 7 500
      = (.error (.appError "address mismatch"), w0) :=
  ((verify_check_order w0 mgr "0x0000000000000000000000000000000000000000"
      sigA msgA "req-1" "ip" "ua" 7 500 nonceA (by decide)).2
    nonceEntryA (by decide)).1 (by decide)

/-- C7: once a verify-and-login run has consumed the nonce (it passed the
nonce, address, expiry and signature checks, which is when the deletion
happens), any later verify-and-login presenting the same message fails with
the invalid-or-expired-nonce error and leaves the store as it was. -/
theorem nonce_single_use (w : World) (m : JWTManager) (address : String)
    (sig : EthSignature) (message rid ip ua : String) (sid now : Nat)
    (rid2 ip2 ua2 : String) (sid2 now2 : Nat) (nonce : String) (d : NonceData)
    (hx : extractNonce message = some nonce)
    (hg : redisGetNonce w ("nonce:" ++ HashString nonce) now = some d)
    (ha : lowerStr d.address = lowerStr address)
    (he : ¬ d.expiresAt < now)
    (hs : verifyEthSignature message sig address = .ok true) :
    verifySignature
      (verifySignature w m address sig message rid ip ua sid now).2
      m address sig message rid2 ip2 ua2 sid2 now2
      = (.error (.appError "invalid or expired nonce"),
         (verifySignature w m address sig message rid ip ua sid now).2) := by
  set w1 := (verifySignature w m address sig message rid ip ua sid now).2
    with hw1
  have hn : redisGetNonce w1 ("nonce:" ++ HashString nonce) now2 = none := by
    rw [redisGetNonce_congr w1
      (redisDelNonce w ("nonce:" ++ HashString nonce)) _ _
      (verify_success_nonces w m address sig message rid ip ua sid now
        nonce d hx hg ha he hs)]
    exact redisGetNonce_after_del w ("nonce:" ++ HashString nonce) now2
  unfold verifySignature
  simp only [hx, hn]

/-- C7 witness: the concrete successful login consumes `nonceA`; replaying
the same message immediately after fails with the invalid-or-expired-nonce
error. -/
theorem nonce_single_use_witness :
    verifySignature
      (verifySignature w0u mgr addrA sigA msgA "req-1" "ip" "ua" 7 500).2
      mgr addrA sigA msgA "req-2" "ip2" "ua2" 8 501
      = (.error (.appError "invalid or expired nonce"),
         (verifySignature w0u mgr addrA sigA msgA "req-1" "ip" "ua" 7 500).2) :=
  nonce_single_use w0u mgr addrA sigA msgA "req-1" "ip" "ua" 7 500
    "req-2" "ip2" "ua2" 8 501 nonceA nonceEntryA (by decide) (by decide)
    (by decide) (by decide) (by decide)

/-- Helper: mapping a function that does not change the searched predicate
commutes with the search. -/
theorem find?_map_invariant {α : Type} (p : α → Bool) (g : α → α)
    (h : ∀ a, p (g a) = p a) (l : List α) :
    (l.map g).find? p = (l.find? p).map g := by
  induction l with
  | nil => rfl
  | cons a t ih =>
    by_cases hp : p a = true
    · simp [List.find?_cons, h, hp]
    · simp [List.find?_cons, h, hp, ih]

/-- C6: a successful `RefreshToken` changes only the access-token hash, the
access expiry and the last-used timestamp of the one session row found by
the refresh-token hash: every other row and every other field (id, owning
user, refresh-token hash) is unchanged, the nonce store, blacklist and user
table are untouched, the minted access token decodes to the original
session id, and the session is still found under the same refresh-token
hash afterwards (so the invariant persists across arbitrarily many
refreshes). -/
theorem refresh_frame (w : World) (m : JWTManager) (rt atk : Tok) (now : Nat)
    (w1 : World) (h : refreshToken w m rt now = (.ok atk, w1)) :
    ∃ s, findSessionByRefreshToken w (hashToken rt) = some s
      ∧ atk.claims.sessionID = s.id
      ∧ w1.nonces = w.nonces ∧ w1.blacklist = w.blacklist
      ∧ w1.users = w.users
      ∧ w1.sessions = w.sessions.map (fun t =>
          if t.id == s.id then
            { t with tokenHash := hashToken atk, expiresAt := now + 15 * 60,
                     lastUsedAt := now }
          else t)
      ∧ findSessionByRefreshToken w1 (hashToken rt)
          = some { s with tokenHash := hashToken atk,
                          expiresAt := now + 15 * 60, lastUsedAt := now } := by
  unfold refreshToken at h
  cases hv : verifyRefreshToken m rt now with
  | error e => rw [hv] at h; simp at h
  | ok claims =>
    rw [hv] at h
    dsimp only at h
    cases hf : findSessionByRefreshToken w (hashToken rt) with
    | none => rw [hf] at h; simp at h
    | some session =>
      rw [hf] at h
      dsimp only at h
      by_cases hu : session.userID = claims.userID
      · rw [if_neg (not_not_intro hu)] at h
        cases hfu : findUserByID w claims.userID with
        | none => rw [hfu] at h; simp at h
        | some user =>
          rw [hfu] at h
          simp only [Prod.mk.injEq, Except.ok.injEq] at h
          obtain ⟨hA, hW⟩ := h
          subst hA
          subst hW
          refine ⟨session, rfl, rfl, rfl, rfl, rfl, rfl, ?_⟩
          unfold findSessionByRefreshToken sessionUpdate
          rw [show ({ w with sessions := w.sessions.map _ } : World).sessions
                = w.sessions.map (fun t =>
                    if t.id == session.id then
                      { t with
                        tokenHash := hashToken (generateAccessToken m
                          { userID := user.id, address := user.walletAddress,
                            lineUserID := "", kycTier := user.kycTier,
                            sessionID := session.id, expiresAt := 0,
                            issuedAt := 0, issuer := "", audience := [] } now),
                        expiresAt := now + 15 * 60, lastUsedAt := now }
                    else t) from rfl]
          rw [find?_map_invariant _ _ ?_ w.sessions]
          · rw [show w.sessions.find?
                (fun s => s.refreshTokenHash == some (hashToken rt))
                = some session from hf]
            simp
          · intro a
            by_cases hid : a.id == session.id <;> simp [hid]
      · rw [if_pos hu] at h
        simp at h

/-- C6 witness: the frame theorem applied to the concrete refresh of
session 7 at time 100. -/
theorem refresh_frame_witness :
    ∃ s, findSessionByRefreshToken wR (hashToken rtA) = some s
      ∧ atkC.claims.sessionID = s.id
      ∧ w1C.nonces = wR.nonces ∧ w1C.blacklist = wR.blacklist
      ∧ w1C.users = wR.users
      ∧ w1C.sessions = wR.sessions.map (fun t =>
          if t.id == s.id then
            { t with tokenHash := hashToken atkC, expiresAt := 100 + 15 * 60,
                     lastUsedAt := 100 }
          else t)
      ∧ findSessionByRefreshToken w1C (hashToken rtA)
          = some { s with tokenHash := hashToken atkC,
                          expiresAt := 100 + 15 * 60, lastUsedAt := 100 } :=
  refresh_frame wR mgr rtA atkC 100 w1C (by decide)

/-- Helper: hex encoding yields two characters per byte. -/
theorem hexEncode_length (bs : List Nat) :
    (hexEncode bs).length = 2 * bs.length := by
  induction bs with
  | nil => rfl
  | cons b t ih =>
    simp only [hexEncode, List.length_cons, ih]
    omega

/-- Helper: every hex digit is in the class of the capture group. -/
theorem isLowerHexChar_hexDigit (n : Nat) :
    isLowerHexChar (hexDigit n) = true := by
  unfold hexDigit
  split <;> decide

/-- Helper: hex encodings consist of capture-class characters only. -/
theorem hexEncode_all_lower (bs : List Nat) :
    (hexEncode bs).all isLowerHexChar = true := by
  induction bs with
  | nil => rfl
  | cons b t ih =>
    simp [hexEncode, List.all_cons, isLowerHexChar_hexDigit, ih]

/-- Helper: hex characters are never the letter that opens the nonce
pattern. -/
theorem isHexCharacter_ne (c : Char) (h : isHexCharacter c = true) :
    c ≠ 'N' := by
  intro he
  subst he
  exact absurd h (by decide)

/-- Helper: a string passing the address validation contains no upper-case
N (it is an optional 0x or 0X start followed by hex characters). -/
theorem hexAddress_no_n (s : String) (h : isHexAddress s = true) :
    ∀ c ∈ s.data, c ≠ 'N' := by
  intro c hc
  simp only [isHexAddress] at h
  by_cases hp : hasHexStart s.data
  · rw [if_pos hp] at h
    cases hd : s.data with
    | nil => rw [hd] at hp; simp [hasHexStart] at hp
    | cons x tl =>
      cases tl with
      | nil => rw [hd] at hp; simp [hasHexStart] at hp
      | cons y tl2 =>
        rw [hd] at hp
        have hp2 : x = '0' ∧ (y = 'x' ∨ y = 'X') := by
          simpa [hasHexStart] using hp
        rw [hd] at h hc
        simp only [List.drop_succ_cons, List.drop_zero,
          Bool.and_eq_true, beq_iff_eq, List.all_eq_true] at h
        rw [List.mem_cons, List.mem_cons] at hc
        rcases hc with hcx | hcy | hcm
        · rw [hcx, hp2.1]; decide
        · rcases hp2.2 with hy | hy <;> rw [hcy, hy] <;> decide
        · exact isHexCharacter_ne c (h.2 c hcm)
  · rw [if_neg hp] at h
    simp only [Bool.and_eq_true, beq_iff_eq, List.all_eq_true] at h
    exact isHexCharacter_ne c (h.2 c hc)

/-- Helper: a digit string contains no upper-case N. -/
theorem digits_no_n (s : String) (h : s.data.all Char.isDigit = true) :
    ∀ c ∈ s.data, c ≠ 'N' := by
  intro c hc he
  rw [List.all_eq_true] at h
  have hd := h c hc
  subst he
  exact absurd hd (by decide)

/-- Helper: the nonce pattern cannot match at a position whose first
character is not the opening letter. -/
theorem matchNonceAt_ne (c : Char) (l : List Char) (h : c ≠ 'N') :
    matchNonceAt (c :: l) = none := by
  simp only [matchNonceAt]
  rw [if_neg]
  intro hcond
  apply h
  have h2 : c :: l.take 6 = 'N' :: ("once: " : String).data := hcond.1
  injection h2 with hh _

/-- Helper: the nonce pattern matches exactly at its literal occurrence and
captures the 32 characters after it. -/
theorem matchNonceAt_exact (body rest : List Char) (h1 : body.length = 32)
    (h2 : body.all isLowerHexChar = true) :
    matchNonceAt ("Nonce: ".data ++ (body ++ rest)) = some body := by
  have hdrop : ("Nonce: ".data ++ (body ++ rest)).drop 7 = body ++ rest := by
    rw [show (7 : Nat) = ("Nonce: " : String).data.length from rfl,
      List.drop_left]
  have hbody : (("Nonce: ".data ++ (body ++ rest)).drop 7).take 32 = body := by
    rw [hdrop, ← h1, List.take_left]
  have htake : ("Nonce: ".data ++ (body ++ rest)).take 7 = "Nonce: ".data := by
    rw [show (7 : Nat) = ("Nonce: " : String).data.length from rfl,
      List.take_left]
  simp only [matchNonceAt]
  rw [if_pos ⟨htake, by rw [hbody, h1], by rw [hbody]; exact h2⟩, hbody]

/-- Helper: the leftmost-match search skips any prefix free of the opening
letter. -/
theorem findNonce_append (l1 l2 : List Char) (h : ∀ c ∈ l1, c ≠ 'N') :
    findNonce (l1 ++ l2) = findNonce l2 := by
  induction l1 with
  | nil => rfl
  | cons c t ih =>
    rw [List.cons_append]
    simp only [findNonce]
    rw [matchNonceAt_ne c _ (h c (List.mem_cons_self c t))]
    exact ih (fun x hx => h x (List.mem_cons_of_mem c hx))

/-- Helper: the search finds the capture group at the literal occurrence of
the pattern. -/
theorem findNonce_pattern (body rest : List Char) (h1 : body.length = 32)
    (h2 : body.all isLowerHexChar = true) :
    findNonce ("Nonce: ".data ++ (body ++ rest)) = some body := by
  rw [show ("Nonce: " : String).data ++ (body ++ rest)
      = 'N' :: (("once: " : String).data ++ (body ++ rest)) from rfl]
  simp only [findNonce]
  rw [show ('N' :: (("once: " : String).data ++ (body ++ rest)))
      = ("Nonce: " : String).data ++ (body ++ rest) from rfl,
    matchNonceAt_exact body rest h1 h2]

/-- Helper: the extraction regex applied to the exact message template
recovers exactly the embedded nonce, provided the claimed address and chain
id contain no upper-case N (true of validated addresses and numeric chain
ids) and the nonce is 32 capture-class characters. -/
theorem extractNonce_createSignMessage (address chainID nonce i e rid :
    String)
    (hA : ∀ c ∈ address.data, c ≠ 'N')
    (hC : ∀ c ∈ chainID.data, c ≠ 'N')
    (h1 : nonce.data.length = 32)
    (h2 : nonce.data.all isLowerHexChar = true) :
    extractNonce (createSignMessage "https://r2s.io" address chainID nonce
      i e rid) = some nonce := by
  unfold extractNonce
  have hdata : (createSignMessage "https://r2s.io" address chainID nonce
      i e rid).data
      = ("https://r2s.io".data
          ++ (" wants you to sign in with your wallet:\n".data
          ++ (address.data
          ++ ("\n\nURI: ".data
          ++ ("https://r2s.io".data
          ++ ("\nVersion: 1\nChain ID: ".data
          ++ (chainID.data ++ ['\n'])))))))
        ++ ("Nonce: ".data
          ++ (nonce.data
          ++ ("\nIssued At: ".data
          ++ (i.data
          ++ ("\nExpiration Time: ".data
          ++ (e.data
          ++ ("\nRequest ID: ".data
          ++ (rid.data
          ++ "\nStatement: Sign to authenticate with R2S platform.".data)))))))) := by
    simp only [createSignMessage, String.data_append, List.append_assoc,
      List.singleton_append, List.cons_append, List.nil_append]
  rw [hdata]
  rw [findNonce_append _ _ ?hP]
  case hP =>
    intro c hcP
    simp only [List.mem_append, List.mem_singleton] at hcP
    rcases hcP with h | h | h | h | h | h | h | h
    · exact (by decide : ∀ x ∈ ("https://r2s.io" : String).data, x ≠ 'N') c h
    · exact (by decide : ∀ x ∈
        (" wants you to sign in with your wallet:\n" : String).data,
        x ≠ 'N') c h
    · exact hA c h
    · exact (by decide : ∀ x ∈ ("\n\nURI: " : String).data, x ≠ 'N') c h
    · exact (by decide : ∀ x ∈ ("https://r2s.io" : String).data, x ≠ 'N') c h
    · exact (by decide : ∀ x ∈ ("\nVersion: 1\nChain ID: " : String).data,
        x ≠ 'N') c h
    · exact hC c h
    · rw [h]; decide
  rw [findNonce_pattern nonce.data _ h1 h2]
  rfl

/-- C9: for a valid address, a numeric chain id and the 16 random bytes of
the nonce, `GenerateNonce` succeeds and returns the hex nonce of exactly 32
capture-class (lower-case hex) characters together with the template
message; the message contains the exact claimed address, the extraction
pattern of the verification side recovers exactly that nonce from the
message, and the challenge record is stored under the hashed nonce key with
absolute expiry six minutes after issuance (both as the Redis TTL and as
the embedded expiry). -/
theorem generate_nonce_contract (w : World) (address chainID : String)
    (bytes : List Nat) (rid : String) (now : Nat)
    (ha : isHexAddress address = true)
    (hb : bytes.length = 16)
    (hc : chainID.data.all Char.isDigit = true) :
    (generateNonce w address chainID bytes rid now).1
      = .ok (generateNonceFromBytes bytes,
          createSignMessage "https://r2s.io" address chainID
            (generateNonceFromBytes bytes) (formatTime now)
            (formatTime (now + 6 * 60)) rid,
          rid, now + 6 * 60)
    ∧ (generateNonceFromBytes bytes).data.length = 32
    ∧ (generateNonceFromBytes bytes).data.all isLowerHexChar = true
    ∧ (∃ l r, (createSignMessage "https://r2s.io" address chainID
          (generateNonceFromBytes bytes) (formatTime now)
          (formatTime (now + 6 * 60)) rid).data = l ++ (address.data ++ r))
    ∧ extractNonce (createSignMessage "https://r2s.io" address chainID
          (generateNonceFromBytes bytes) (formatTime now)
          (formatTime (now + 6 * 60)) rid)
        = some (generateNonceFromBytes bytes)
    ∧ (generateNonce w address chainID bytes rid now).2.nonces.find?
        (fun e => e.1 == "nonce:" ++ HashString (generateNonceFromBytes bytes))
        = some ("nonce:" ++ HashString (generateNonceFromBytes bytes),
            { address := lowerStr address, chainId := chainID,
              requestId := rid, expiresAt := now + 6 * 60 },
            now + 6 * 60) := by
  have h32 : (generateNonceFromBytes bytes).data.length = 32 := by
    show (hexEncode bytes).length = 32
    rw [hexEncode_length, hb]
  have hall : (generateNonceFromBytes bytes).data.all isLowerHexChar = true :=
    hexEncode_all_lower bytes
  have hgn : generateNonce w address chainID bytes rid now
      = (.ok (generateNonceFromBytes bytes,
            createSignMessage "https://r2s.io" address chainID
              (generateNonceFromBytes bytes) (formatTime now)
              (formatTime (now + 6 * 60)) rid,
            rid, now + 6 * 60),
         redisSetNonce w
           ("nonce:" ++ HashString (generateNonceFromBytes bytes))
           { address := lowerStr address, chainId := chainID,
             requestId := rid, expiresAt := now + 6 * 60 }
           (now + 6 * 60)) := by
    unfold generateNonce
    rw [if_neg (not_not_intro ha)]
  refine ⟨?_, h32, hall, ?_, ?_, ?_⟩
  · rw [hgn]
  · refine ⟨"https://r2s.io".data
        ++ " wants you to sign in with your wallet:\n".data,
      "\n\nURI: ".data
        ++ ("https://r2s.io".data
        ++ ("\nVersion: 1\nChain ID: ".data
        ++ (chainID.data
        ++ ("\nNonce: ".data
        ++ ((generateNonceFromBytes bytes).data
        ++ ("\nIssued At: ".data
        ++ ((formatTime now).data
        ++ ("\nExpiration Time: ".data
        ++ ((formatTime (now + 6 * 60)).data
        ++ ("\nRequest ID: ".data
        ++ (rid.data
        ++ "\nStatement: Sign to authenticate with R2S platform.".data))))))))))), ?_⟩
    simp only [createSignMessage, String.data_append, List.append_assoc,
      List.singleton_append, List.cons_append, List.nil_append]
  · exact extractNonce_createSignMessage address chainID
      (generateNonceFromBytes bytes) (formatTime now)
      (formatTime (now + 6 * 60)) rid
      (hexAddress_no_n address ha) (digits_no_n chainID hc) h32 hall
  · rw [hgn]
    simp [redisSetNonce, List.find?]

/-- C9 witness: the contract applied to the sample address, chain 1001 and
sixteen zero bytes at time 50. -/
theorem generate_nonce_contract_witness :
    isHexAddress addrA = true
    ∧ (List.replicate 16 0).length = 16
    ∧ ("1001" : String).data.all Char.isDigit = true
    ∧ extractNonce (createSignMessage "https://r2s.io" addrA "1001"
        (generateNonceFromBytes (List.replicate 16 0)) (formatTime 50)
        (formatTime (50 + 6 * 60)) "req-9")
      = some (generateNonceFromBytes (List.replicate 16 0)) :=
  ⟨by decide, by decide, by decide,
   (generate_nonce_contract emptyW addrA "1001" (List.replicate 16 0) "req-9"
     50 (by decide) (by decide) (by decide)).2.2.2.2.1⟩

end R2S
